import Mathlib

/-!
Verification of the CAPES research exporter core (`src/content.js`) against its
natural-language specification.  JavaScript strings are modelled as `List Char`,
JavaScript arrays as `List`, the insertion-ordered JS `Set` as a duplicate-free
`List` built by `setAdd`, and the fallible parts of deserialization as `Except`.
All definitions are transcribed from the source; definitions whose name ends in
`Spec` are written from the specification's words and compared against the
source-level definitions in refinement theorems.
-/

namespace Capes

/-- JavaScript strings, modelled as lists of characters. -/
abbrev Str := List Char

/-- `Array.prototype.join(sep)`: concatenate the pieces with `sep` between
consecutive pieces (empty output on the empty array). -/
def joinWith (sep : Str) : List Str → Str
  | [] => []
  | [x] => x
  | x :: y :: rest => x ++ sep ++ joinWith sep (y :: rest)

/-- Whitespace as matched by the regex class `\s` (ASCII portion). -/
def jsWs (c : Char) : Bool :=
  c = ' ' || c = '\t' || c = '\n' || c = '\r' || c = '\x0b' || c = '\x0c'

/-- Numeric value of a string of decimal digits (`parseInt` on a digit run). -/
def digitsToNat (ds : Str) : Nat :=
  ds.foldl (fun a c => a * 10 + (c.toNat - 48)) 0

/-- First match of the regex `/(\d{4})/`: the earliest run of four consecutive
decimal digits in the string, if any. -/
def find4 : Str → Option Str
  | [] => none
  | c :: rest =>
    let four := (c :: rest).take 4
    if four.length = 4 && four.all Char.isDigit then some four
    else find4 rest

/-- `parseInt(s, 10)`: strip leading whitespace, read an optional sign and a
leading run of decimal digits; `none` models `NaN`. -/
def jsParseInt (x : Str) : Option Int :=
  let digitsPrefix : Str → Option Nat := fun l =>
    let ds := l.takeWhile Char.isDigit
    if ds = [] then none else some (digitsToNat ds)
  let t := x.dropWhile jsWs
  match t with
  | '-' :: rest => (digitsPrefix rest).map (fun n => -(n : Int))
  | '+' :: rest => (digitsPrefix rest).map (fun n => (n : Int))
  | _ => (digitsPrefix t).map (fun n => (n : Int))

/-- `Set.prototype.add` on the insertion-ordered list model of a JS `Set`:
append the element unless it is already present. -/
def setAdd (l : List Int) (x : Int) : List Int :=
  if x ∈ l then l else l ++ [x]

-- === DATA MODEL (the `Article` typedef of content.js) ===

/-- One extracted bibliographic record (`Article` in content.js). -/
structure Article where
  id : Str
  title : Str
  authors : List Str
  journal : Str
  year : Str
  documentType : Str
  isOpenAccess : Bool
  isPeerReviewed : Bool
  deriving DecidableEq

/-- In-memory export state (`ExportState` in content.js); `processedPages`
models the JS `Set<number>` as an insertion-ordered duplicate-free list, and
`startTime` is carried as an opaque timestamp string. -/
structure ExportState where
  format : Str
  articles : List Article
  processedPages : List Int
  totalArticles : Int
  startTime : Str
  deriving DecidableEq

-- === FORMAT CONVERTERS (class FormatConverter) ===

/-- `RIS_TYPE_MAP[documentType] || 'JOUR'`. -/
def risType (dt : Str) : Str :=
  if dt = "Artigo".data then "JOUR".data
  else if dt = "Capítulo de livro".data then "CHAP".data
  else if dt = "Carta".data then "NEWS".data
  else if dt = "Errata".data then "JOUR".data
  else if dt = "Revisão".data then "JOUR".data
  else "JOUR".data

/-- `BIBTEX_TYPE_MAP[documentType] || 'article'`. -/
def bibtexType (dt : Str) : Str :=
  if dt = "Artigo".data then "article".data
  else if dt = "Capítulo de livro".data then "inbook".data
  else if dt = "Carta".data then "article".data
  else if dt = "Errata".data then "article".data
  else if dt = "Revisão".data then "article".data
  else "article".data

/-- `FormatConverter.buildNotesArray`. -/
def buildNotesArray (a : Article) : List Str :=
  (if a.isOpenAccess then [ "Open Access".data] else [])
    ++ (if a.isPeerReviewed then [ "Peer Reviewed".data] else [])
    ++ (if a.id = [] then [] else [ "CAPES ID: ".data ++ a.id])

/-- The lines pushed by `FormatConverter.articleToRIS`, in push order.  The
guards mirror the JS truthiness tests (`if (article.title)` etc.), and the PY
line is pushed only when `article.year` is truthy and `/(\d{4})/` matches. -/
def articleToRISLines (a : Article) : List Str :=
  ([ "TY  - ".data ++ risType a.documentType]
    ++ (if a.title = [] then [] else [ "TI  - ".data ++ a.title])
    ++ a.authors.map (fun au => "AU  - ".data ++ au)
    ++ (if a.year = [] then []
        else match find4 a.year with
          | some y => [ "PY  - ".data ++ y]
          | none => [])
    ++ (if a.journal = [] then []
        else [ "T2  - ".data ++ a.journal, "JF  - ".data ++ a.journal])
    ++ (if buildNotesArray a = [] then []
        else [ "N1  - ".data ++ joinWith ( "; ".data) (buildNotesArray a)]))
  ++ [ "ER  - ".data]

/-- `FormatConverter.articleToRIS`: the pushed lines joined with CRLF. -/
def articleToRIS (a : Article) : Str :=
  joinWith ( "\r\n".data) (articleToRISLines a)

/-- `FormatConverter.toRIS`: records joined with a blank line, plus a final
newline. -/
def toRIS (articles : List Article) : Str :=
  joinWith ( "\n\n".data) (articles.map articleToRIS) ++ "\n".data

/-- `String.prototype.replace` with a global single-character pattern:
every occurrence of `c` becomes `rep`. -/
def replaceChar (c : Char) (rep : Str) (x : Str) : Str :=
  x.flatMap (fun a => if a = c then rep else [a])

/-- `FormatConverter.escapeBibTeX`: the seven sequential global replaces of
the source, backslash first. -/
def escapeBibTeX (x : Str) : Str :=
  replaceChar '#' ['\\', '#']
    (replaceChar '%' ['\\', '%']
      (replaceChar '&' ['\\', '&']
        (replaceChar '$' ['\\', '$']
          (replaceChar '\x7d' ['\\', '\x7d']
            (replaceChar '\x7b' ['\\', '\x7b']
              (replaceChar '\\' ['\\', '\\'] x))))))

/-- `FormatConverter.extractYear`: first 4-digit run, else the token
`unknown`. -/
def extractYear (yearStr : Str) : Str :=
  if yearStr = [] then "unknown".data
  else match find4 yearStr with
    | some y => y
    | none => "unknown".data

/-- Lower-case mapping used by `String.prototype.toLowerCase` (ASCII part,
which is all the citation-key cleaning can keep). -/
def jsToLower (c : Char) : Char := c.toLower

/-- Characters kept by `replace(/[^a-z0-9\s]/g, '')` after lower-casing. -/
def citationKeep (c : Char) : Bool :=
  ('a' ≤ c && c ≤ 'z') || ('0' ≤ c && c ≤ '9') || jsWs c

/-- `FormatConverter.generateCitationKey`.  `split(/\s+/)` is modelled by
splitting at every whitespace character; the empty tokens this produces at
whitespace runs are exactly the ones the length-`> 3` filter discards, so the
composition agrees with the JS split. -/
def generateCitationKey (a : Article) : Str :=
  let cleaned := (a.title.map jsToLower).filter citationKeep
  let titleWords := ((cleaned.splitOnP jsWs).filter (fun w => w.length > 3)).take 3
  titleWords.flatten ++ extractYear a.year

/-- The lines pushed by `FormatConverter.articleToBibTeX`, in push order. -/
def articleToBibTeXLines (a : Article) : List Str :=
  [ "@".data ++ bibtexType a.documentType ++ "\x7b".data ++ generateCitationKey a ++ ",".data]
    ++ [ "  title = \x7b".data ++ escapeBibTeX a.title ++ "\x7d,".data]
    ++ (if a.authors = [] then []
        else [ "  author = \x7b".data ++ escapeBibTeX (joinWith ( " and ".data) a.authors) ++ "\x7d,".data])
    ++ (if a.journal = [] then []
        else [ "  journal = \x7b".data ++ escapeBibTeX a.journal ++ "\x7d,".data])
    ++ (if extractYear a.year = "unknown".data then []
        else [ "  year = \x7b".data ++ extractYear a.year ++ "\x7d,".data])
    ++ (if buildNotesArray a = [] then []
        else [ "  note = \x7b".data ++ escapeBibTeX (joinWith ( "; ".data) (buildNotesArray a)) ++ "\x7d,".data])
    ++ [ "\x7d".data]

/-- `FormatConverter.articleToBibTeX`: the pushed lines joined with LF. -/
def articleToBibTeX (a : Article) : Str :=
  joinWith ( "\n".data) (articleToBibTeXLines a)

/-- `FormatConverter.toBibTeX`: records with a truthy (non-empty) title are
kept, converted, joined with a blank line, plus a final newline. -/
def toBibTeX (articles : List Article) : Str :=
  joinWith ( "\n\n".data)
    (((articles.filter (fun a => a.title ≠ [])).map articleToBibTeX)) ++ "\n".data

-- === PAGE NAVIGATION (class PageNavigator) ===

/-- `PageNavigator.getCurrentPage`: `parseInt(params.get('page'), 10) || 1`.
The input is the raw value of the `page` query parameter (`none` when the
parameter is absent; `parseInt(null, 10)` is `NaN`).  `|| 1` replaces the
falsy results `NaN` and `0` by `1`. -/
def getCurrentPage (pageParam : Option Str) : Int :=
  let parsed := match pageParam with
    | none => none
    | some v => jsParseInt v
  match parsed with
  | none => 1
  | some n => if n = 0 then 1 else n

/-- Attempt of the regex `/(\d+)–(\d+)\s*de\s*(\d+)/` anchored at the start of
the string: maximal digit runs and maximal whitespace runs are equivalent to
the regex's backtracking here, because a shortened run would leave a character
that cannot match the following literal. -/
def matchRangeAt (l : Str) : Option (Nat × Nat × Nat) :=
  let d1 := l.takeWhile Char.isDigit
  if d1 = [] then none else
  match l.dropWhile Char.isDigit with
  | '–' :: r2 =>
    let d2 := r2.takeWhile Char.isDigit
    if d2 = [] then none else
    match (r2.dropWhile Char.isDigit).dropWhile jsWs with
    | 'd' :: 'e' :: r5 =>
      let d3 := (r5.dropWhile jsWs).takeWhile Char.isDigit
      if d3 = [] then none
      else some (digitsToNat d1, digitsToNat d2, digitsToNat d3)
    | _ => none
  | _ => none

/-- First match of `/(\d+)–(\d+)\s*de\s*(\d+)/` in the string: the regex engine
tries each start position from the left. -/
def matchRange : Str → Option (Nat × Nat × Nat)
  | [] => none
  | c :: rest =>
    match matchRangeAt (c :: rest) with
    | some r => some r
    | none => matchRange rest

/-- `PageNavigator.hasNextPage`.  `nextBtnPresent` is whether the enabled
next-control selector matches; `pageInfoText` is the text content of the
pagination-information element when that element exists.  When the element
exists but the regex does not match, the JS returns the falsy `null`,
modelled as `false`. -/
def hasNextPage (nextBtnPresent : Bool) (pageInfoText : Option Str) : Bool :=
  if nextBtnPresent then true
  else match pageInfoText with
    | some txt =>
      match matchRange txt with
      | some (_, b, t) => decide (b < t)
      | none => false
    | none => false

-- === FILE DOWNLOAD (class FileDownloader) ===

/-- `FileDownloader.generateFilename`: `q` is the search query parameter,
`timestamp` the compact timestamp string produced by `getTimestamp()`. -/
def generateFilename (q : Option Str) (timestamp : Str) (format : Str) : Str :=
  let searchTerm := match q with
    | some v => if v = [] then "capes-export".data else v
    | none => "capes-export".data
  let cleanTerm := (searchTerm.map (fun c =>
    if ('a' ≤ c && c ≤ 'z') || ('A' ≤ c && c ≤ 'Z') || ('0' ≤ c && c ≤ '9')
    then c else '_')).take 20
  let ext := if format = "ris".data then "ris".data else "bib".data
  "capes_".data ++ cleanTerm ++ "_".data ++ timestamp ++ ".".data ++ ext

-- === STATE MANAGEMENT (class StateManager) ===

/-- Parsed JSON values (`JSON.parse` output).  Numbers are modelled as
integers, which covers every value the exporter stores. -/
inductive Json where
  | null : Json
  | bool (b : Bool) : Json
  | num (n : Int) : Json
  | str (s : Str) : Json
  | arr (elems : List Json) : Json
  | obj (fields : List (Str × Json)) : Json

/-- JS `SameValueZero` equality as used by `Set`: primitives compare by
value; two parsed objects or arrays are distinct references, hence never
equal. -/
def jsPrimEq : Json → Json → Bool
  | Json.null, Json.null => true
  | Json.bool a, Json.bool b => a = b
  | Json.num a, Json.num b => a = b
  | Json.str a, Json.str b => a = b
  | _, _ => false

/-- JS property read `v[key]` as it occurs in `StateManager.load`:
reading a property of `null` throws; objects yield the field (last duplicate
wins, as in `JSON.parse`); every other value yields `undefined` (`none`). -/
def jsGetField (j : Json) (key : Str) : Except Unit (Option Json) :=
  match j with
  | Json.null => Except.error ()
  | Json.obj fields =>
    Except.ok (fields.foldl (fun acc p => if p.1 = key then some p.2 else acc) none)
  | _ => Except.ok none

/-- `new Set(v)`: `undefined` and `null` give the empty set, arrays and
strings are iterated (insertion-ordered, duplicates dropped), any other value
throws `TypeError`. -/
def jsNewSet (v : Option Json) : Except Unit (List Json) :=
  let dedup : List Json → List Json := fun l =>
    l.foldl (fun acc x => if acc.any (fun y => jsPrimEq y x) then acc else acc ++ [x]) []
  match v with
  | none => Except.ok []
  | some Json.null => Except.ok []
  | some (Json.arr l) => Except.ok (dedup l)
  | some (Json.str s) => Except.ok (dedup (s.map (fun c => Json.str [c])))
  | some _ => Except.error ()

/-- The value `StateManager.load` returns when nothing throws: the parsed
object spread together with the reconstructed page set and the raw
`startTime` value (`new Date` never throws, so the date is carried raw). -/
structure LoadedState where
  raw : Json
  processedPages : List Json
  startTime : Option Json

/-- The field reconstruction inside `StateManager.load`
(`{...parsed, processedPages: new Set(...), startTime: new Date(...)}`);
`Except.error` marks the places where the JS throws. -/
def deserializeState (j : Json) : Except Unit LoadedState := do
  let pp ← jsGetField j ( "processedPages".data)
  let pages ← jsNewSet pp
  let st ← jsGetField j ( "startTime".data)
  Except.ok { raw := j, processedPages := pages, startTime := st }

/-- The checkpoint slot as `StateManager.load` sees it: `none` models a
missing (or falsy) stored string, `some (Except.error ())` a stored string on
which `JSON.parse` throws, and `some (Except.ok j)` a stored string parsing
to `j`.  This is information-preserving for `load`, whose only use of the
stored text is `JSON.parse`. -/
abbrev Slot := Option (Except Unit Json)

/-- `StateManager.load`: result and the slot after the call (the `catch`
branch calls `StateManager.clear`). -/
def StateManager.load (slot : Slot) : Option LoadedState × Slot :=
  match slot with
  | none => (none, none)
  | some (Except.error _) => (none, none)
  | some (Except.ok j) =>
    match deserializeState j with
    | Except.ok st => (some st, some (Except.ok j))
    | Except.error _ => (none, none)

-- === MAIN EXPORT CONTROLLER (class ExportController) ===

/-- `ExportController.initializeState`. -/
def initializeState (format : Str) (totalEstimate : Int) (now : Str) : ExportState :=
  { format := format
    articles := []
    processedPages := []
    totalArticles := totalEstimate
    startTime := now }

/-- The state mutation performed by `ExportController.processCurrentPage`:
when the extractor yields at least one article the records are appended and
the current page index is added to the page set; a zero-record page mutates
nothing.  `currentPage` is `PageNavigator.getCurrentPage()` and `extracted`
is `ArticleExtractor.extractFromPage()`. -/
def processStep (st : ExportState) (currentPage : Int) (extracted : List Article) :
    ExportState :=
  if extracted = [] then st
  else { st with
          articles := st.articles ++ extracted
          processedPages := setAdd st.processedPages currentPage }

/-- `ExportController.shouldContinueToNextPage`. -/
def shouldContinueToNextPage (st : ExportState) (currentPage : Int)
    (hasNext : Bool) : Bool :=
  hasNext && !(st.processedPages.contains (currentPage + 1))

/-- `ExportController.generateExportContent`: a format other than the exact
string `ris` takes the BibTeX branch of the ternary. -/
def generateExportContent (format : Str) (articles : List Article) : Str :=
  if format = "ris".data then toRIS articles else toBibTeX articles

/-- Observable outcome of the finalizing step: the terminal status, what was
handed to the download collaborator, and whether the checkpoint slot was
cleared. -/
structure CompleteOutcome where
  failed : Option Str
  downloaded : Option (Str × Str)
  cleared : Bool
  deriving DecidableEq

/-- `ExportController.handleError`: reports the failure message and clears
the checkpoint (`StateManager.clear()`). -/
def handleError (msg : Str) : CompleteOutcome :=
  { failed := some msg, downloaded := none, cleared := true }

/-- `ExportController.completeExport`: with no collected articles it routes a
"no records" error through `handleError` (converter and downloader are not
reached); otherwise it converts, downloads under the generated filename and
clears the checkpoint.  `q` is the search query parameter and `ts` the
timestamp used by `FileDownloader.generateFilename`. -/
def completeExport (st : ExportState) (q : Option Str) (ts : Str) : CompleteOutcome :=
  if st.articles = [] then handleError ( "No articles found to export".data)
  else
    { failed := none
      downloaded := some (generateExportContent st.format st.articles,
        generateFilename q ts st.format)
      cleared := true }

/-- One orchestrator step within an export run's lifetime: the page-processing
mutation (navigation and checkpoint saves do not change the in-memory run). -/
inductive OrchStep where
  | process (page : Int) (extracted : List Article) : OrchStep

/-- Apply one orchestrator step to the run state. -/
def applyStep (st : ExportState) : OrchStep → ExportState
  | OrchStep.process page extracted => processStep st page extracted

/-- Run a sequence of orchestrator steps from a start state. -/
def runSteps (st : ExportState) (steps : List OrchStep) : ExportState :=
  steps.foldl applyStep st

-- === MESSAGE LISTENER (chrome.runtime.onMessage handler) ===

/-- A control message; absent fields are `none`, and `some []` models a
present-but-empty (falsy) string. -/
structure ControlMessage where
  action : Option Str
  format : Option Str

/-- Observable behaviour of the `chrome.runtime.onMessage` listener: which
format (if any) the export was started with, and whether `sendResponse`
announced `{success: true}`. -/
structure ListenerOutcome where
  started : Option Str
  respondedSuccess : Bool
  deriving DecidableEq

/-- The message listener: `if (message.action === 'export' && message.format)`
starts the export with the raw format and responds; any other message is
ignored (no response is sent). -/
def handleMessage (msg : ControlMessage) : ListenerOutcome :=
  let formatTruthy := match msg.format with
    | none => false
    | some s => s ≠ []
  if msg.action = some ( "export".data) && formatTruthy then
    { started := msg.format, respondedSuccess := true }
  else
    { started := none, respondedSuccess := false }

-- === SPEC-SIDE DEFINITIONS (written from the specification's words) ===

/-- Spec, RIS output: the fields of one record in the fixed order
`TY, TI, AU (one per author, original order), PY, T2, JF, N1, ER`, the PY
line present exactly when a 4-digit year can be pattern-matched out of the
record's year string. -/
def risFieldsSpec (a : Article) : List Str :=
  [ "TY  - ".data ++ risType a.documentType]
    ++ (if a.title = [] then [] else [ "TI  - ".data ++ a.title])
    ++ a.authors.map (fun au => "AU  - ".data ++ au)
    ++ (match find4 a.year with
        | some y => [ "PY  - ".data ++ y]
        | none => [])
    ++ (if a.journal = [] then []
        else [ "T2  - ".data ++ a.journal, "JF  - ".data ++ a.journal])
    ++ (if buildNotesArray a = [] then []
        else [ "N1  - ".data ++ joinWith ( "; ".data) (buildNotesArray a)])
    ++ [ "ER  - ".data]

/-- Number of newline characters the document ends with. -/
def trailingNewlineCount (x : Str) : Nat :=
  (x.reverse.takeWhile (fun c => c = '\n')).length

/-- Spec: the seven BibTeX-significant characters. -/
def bibSpecial : List Char := ['\\', '\x7b', '\x7d', '$', '&', '%', '#']

/-- Spec, BibTeX escaping: each of the seven significant characters appears
backslash-escaped exactly once in the output, applied as one pass over the
input. -/
def escCharSpec (c : Char) : Str :=
  if c ∈ bibSpecial then ['\\', c] else [c]

/-- Spec, `hasMorePages` fallback: true iff a textual range indicator
`A–B of T` is present and `B < T`. -/
def rangeIndicatorSaysMore (pageInfoText : Option Str) : Bool :=
  match pageInfoText with
  | some txt =>
    match matchRange txt with
    | some (_, b, t) => decide (b < t)
    | none => false
  | none => false

/-- Spec, checkpoint schema (§6, under the field names the code stores):
`format` a string, `articles` an array, `processedPages` an array of
integers, `totalArticles` an integer, `startTime` a string shaped like an
ISO-8601 timestamp (`DDDD-DD-DDT...`).  Returns whether every field
deserializes. -/
def checkpointFieldsOkSpec (j : Json) : Bool :=
  let isoShaped : Str → Bool := fun s =>
    match s with
    | y1 :: y2 :: y3 :: y4 :: '-' :: m1 :: m2 :: '-' :: d1 :: d2 :: 'T' :: _ =>
      [y1, y2, y3, y4, m1, m2, d1, d2].all Char.isDigit
    | _ => false
  match j with
  | Json.obj fields =>
    let get : Str → Option Json := fun key =>
      fields.foldl (fun acc p => if p.1 = key then some p.2 else acc) none
    (match get ( "format".data) with
      | some (Json.str _) => true
      | _ => false)
    && (match get ( "articles".data) with
      | some (Json.arr _) => true
      | _ => false)
    && (match get ( "processedPages".data) with
      | some (Json.arr l) => l.all (fun v => match v with
          | Json.num _ => true
          | _ => false)
      | _ => false)
    && (match get ( "totalArticles".data) with
      | some (Json.num _) => true
      | _ => false)
    && (match get ( "startTime".data) with
      | some (Json.str s) => isoShaped s
      | _ => false)
  | _ => false

-- === SAMPLE DATA (used by concrete witnesses and counterexamples) ===

/-- A representative extracted record. -/
def sampleArticle : Article :=
  { id := "42".data
    title := "Deep Learning Methods".data
    authors := [ "Silva, A.".data]
    journal := "Rev X".data
    year := "2021".data
    documentType := "Artigo".data
    isOpenAccess := false
    isPeerReviewed := true }

/-- A run state as restored from a checkpoint that already harvested page 1. -/
def resumedState : ExportState :=
  { format := "ris".data
    articles := [sampleArticle]
    processedPages := [1]
    totalArticles := 1
    startTime := "t0".data }

-- === HELPER LEMMAS ===

theorem risLines_eq_spec (a : Article) : articleToRISLines a = risFieldsSpec a := by
  by_cases h : a.year = []
  · simp [articleToRISLines, risFieldsSpec, h, find4]
  · simp [articleToRISLines, risFieldsSpec, h]

theorem joinWith_suffix (sep : Str) :
    ∀ (bs : List Str) (b : Str), bs.getLast? = some b → b <:+ joinWith sep bs
  | [], b, h => by simp at h
  | [x], b, h => by
    simp at h
    subst h
    exact List.suffix_refl x
  | x :: y :: rest, b, h => by
    have h' : (y :: rest).getLast? = some b := by simpa using h
    have ih := joinWith_suffix sep (y :: rest) b h'
    have hstep : joinWith sep (x :: y :: rest) = x ++ (sep ++ joinWith sep (y :: rest)) := by
      simp [joinWith]
    rw [hstep]
    exact (ih.trans (List.suffix_append sep _)).trans (List.suffix_append x _)

theorem risLines_getLast (a : Article) :
    (articleToRISLines a).getLast? = some ( "ER  - ".data) := by
  unfold articleToRISLines
  exact List.getLast?_concat _

theorem toRIS_trailing (l : List Article) : trailingNewlineCount (toRIS l) = 1 := by
  cases l with
  | nil => rfl
  | cons x xs =>
    obtain ⟨lastA, hA⟩ : ∃ a, (x :: xs).getLast? = some a := by
      cases hxx : (x :: xs).getLast? with
      | none => simp at hxx
      | some a => exact ⟨a, rfl⟩
    have hlast : ((x :: xs).map articleToRIS).getLast? = some (articleToRIS lastA) := by
      rw [List.getLast?_map, hA]
      rfl
    have hsuf1 : articleToRIS lastA <:+
        joinWith ( "\n\n".data) ((x :: xs).map articleToRIS) :=
      joinWith_suffix _ _ _ hlast
    have hsuf2 : ( "ER  - ".data) <:+ articleToRIS lastA :=
      joinWith_suffix _ _ _ (risLines_getLast _)
    obtain ⟨c, hc⟩ := hsuf2.trans hsuf1
    have hdoc : toRIS (x :: xs) = c ++ ( "ER  - ".data) ++ "\n".data := by
      rw [toRIS, ← hc]
    rw [hdoc]
    simp [trailingNewlineCount, List.takeWhile]

theorem setAdd_grows (l : List Int) (x : Int) : l <+: setAdd l x := by
  unfold setAdd
  split
  · exact List.prefix_refl l
  · exact ⟨[x], rfl⟩

theorem setAdd_nodup {l : List Int} {x : Int} (h : l.Nodup) : (setAdd l x).Nodup := by
  unfold setAdd
  split
  · exact h
  · next hx => simp [List.nodup_append, h, hx]

theorem applyStep_grows (st : ExportState) (s : OrchStep) :
    st.processedPages <+: (applyStep st s).processedPages
    ∧ st.articles <+: (applyStep st s).articles := by
  cases s with
  | process page extracted =>
    by_cases h : extracted = []
    · simp [applyStep, processStep, h]
    · have h1 : applyStep st (OrchStep.process page extracted)
          = { st with
                articles := st.articles ++ extracted
                processedPages := setAdd st.processedPages page } := by
        simp [applyStep, processStep, h]
      rw [h1]
      exact ⟨setAdd_grows _ _, ⟨extracted, rfl⟩⟩

theorem applyStep_nodup (st : ExportState) (s : OrchStep)
    (h : st.processedPages.Nodup) : (applyStep st s).processedPages.Nodup := by
  cases s with
  | process page extracted =>
    by_cases he : extracted = []
    · simpa [applyStep, processStep, he] using h
    · have h1 : applyStep st (OrchStep.process page extracted)
          = { st with
                articles := st.articles ++ extracted
                processedPages := setAdd st.processedPages page } := by
        simp [applyStep, processStep, he]
      rw [h1]
      exact setAdd_nodup h

-- === CLAIM THEOREMS ===

/-- C1: the code_bug exhibited concretely.  With an unchanged checkpoint whose
`visitedPages` already contains page 1, processing page 1 again (the extractor
yielding the same record) re-appends the record: the run's records sequence
becomes `[r, r]` instead of staying `[r]` as the claim requires. -/
theorem c1_revisited_page_reappends_records :
    (1 : Int) ∈ resumedState.processedPages
    ∧ (processStep resumedState 1 [sampleArticle]).articles
        = resumedState.articles ++ [sampleArticle]
    ∧ (processStep resumedState 1 [sampleArticle]).articles.length = 2
    ∧ resumedState.articles.length = 1 :=
  ⟨by decide, rfl, rfl, rfl⟩

/-- C2 counterexample: a control message with action `export` and no `format`
field is ignored outright (no export starts, no `{success: true}` response),
and a present-but-invalid format such as `xml` makes the core produce BibTeX
output, not RIS — both contradicting the claimed default to `ris`. -/
theorem c2_counterexample :
    handleMessage { action := some ( "export".data), format := none }
        = { started := none, respondedSuccess := false }
    ∧ generateExportContent ( "xml".data) [sampleArticle] = toBibTeX [sampleArticle]
    ∧ (generateExportContent ( "xml".data) [sampleArticle]).head? = some '@'
    ∧ (toRIS [sampleArticle]).head? = some 'T' :=
  ⟨rfl, rfl, rfl, rfl⟩

/-- C2 (amended): a message whose `format` is absent or empty is ignored —
no export and no response; a message with action `export` and any non-empty
`format` starts the export with that format and responds success; the export
content is RIS exactly for the format string `ris` and BibTeX for every
other format string. -/
theorem c2_amended_listener :
    (∀ msg : ControlMessage, (msg.format = none ∨ msg.format = some []) →
        handleMessage msg = { started := none, respondedSuccess := false })
    ∧ (∀ msg : ControlMessage, ∀ f, msg.action = some ( "export".data) →
        msg.format = some f → f ≠ [] →
        handleMessage msg = { started := some f, respondedSuccess := true })
    ∧ (∀ f (arts : List Article), f ≠ "ris".data →
        generateExportContent f arts = toBibTeX arts)
    ∧ (∀ arts : List Article, generateExportContent ( "ris".data) arts = toRIS arts) := by
  refine ⟨?_, ?_, ?_, ?_⟩
  · rintro msg (h | h) <;> simp [handleMessage, h]
  · intro msg f ha hf hne
    simp [handleMessage, ha, hf, hne]
  · intro f arts h
    simp [generateExportContent, h]
  · intro arts
    simp [generateExportContent]

/-- C2 witness: the amended behaviour at concrete messages — `format: "xml"`
starts the export with `xml` and responds success. -/
theorem c2_amended_listener_witness :
    handleMessage { action := some ( "export".data), format := some ( "xml".data) }
      = { started := some ( "xml".data), respondedSuccess := true } :=
  c2_amended_listener.2.1 { action := some ( "export".data), format := some ( "xml".data) }
    ( "xml".data) rfl rfl (by decide)

/-- C3: `hasNextPage` returns true whenever the enabled next-control is
present, regardless of the range text (in particular on `10–10 de 10`); with
no control it equals the spec's textual-range fallback (true iff a range
`A–B de T` is present with `B < T`), and is false when neither signal
exists. -/
theorem c3_hasMorePages_precedence :
    (∀ info, hasNextPage true info = true)
    ∧ (∀ info, hasNextPage false info = rangeIndicatorSaysMore info)
    ∧ hasNextPage false none = false
    ∧ hasNextPage true (some ( "10–10 de 10".data)) = true
    ∧ matchRange ( "10–10 de 10".data) = some (10, 10, 10)
    ∧ rangeIndicatorSaysMore (some ( "10–10 de 10".data)) = false := by
  refine ⟨fun info => rfl, fun info => ?_, rfl, rfl, by decide, by decide⟩
  cases info <;> rfl

/-- C7: in the finalizing step an empty records sequence yields the
`No articles found to export` failure with nothing converted or downloaded,
a non-empty one converts, downloads under the generated filename and
succeeds, and both terminal outcomes clear the checkpoint slot. -/
theorem c7_finalizing_behaviour :
    ∀ (st : ExportState) (q : Option Str) (ts : Str),
      (st.articles = [] →
        completeExport st q ts
          = { failed := some ( "No articles found to export".data)
              downloaded := none
              cleared := true })
      ∧ (st.articles ≠ [] →
        completeExport st q ts
          = { failed := none
              downloaded := some (generateExportContent st.format st.articles,
                generateFilename q ts st.format)
              cleared := true })
      ∧ (completeExport st q ts).cleared = true := by
  intro st q ts
  refine ⟨fun h => ?_, fun h => ?_, ?_⟩
  · simp [completeExport, handleError, h]
  · simp [completeExport, h]
  · by_cases h : st.articles = [] <;> simp [completeExport, handleError, h]

/-- C7 witness: the finalizing behaviour on a concrete empty run and on a
concrete one-record run. -/
theorem c7_finalizing_behaviour_witness :
    completeExport (initializeState ( "ris".data) 0 ( "t0".data)) none ( "ts".data)
      = { failed := some ( "No articles found to export".data)
          downloaded := none
          cleared := true } :=
  (c7_finalizing_behaviour (initializeState ( "ris".data) 0 ( "t0".data))
    none ( "ts".data)).1 rfl

/-- C8: removing the empty-title records from the input does not change the
BibTeX output (they are excluded from it), while the RIS document consists of
one block per input record, empty-titled ones included. -/
theorem c8_empty_title_handling :
    ∀ l : List Article,
      toBibTeX l = toBibTeX (l.filter (fun a => a.title ≠ []))
      ∧ ∃ blocks, toRIS l = joinWith ( "\n\n".data) blocks ++ "\n".data
          ∧ blocks.length = l.length := by
  intro l
  constructor
  · simp [toBibTeX, List.filter_filter]
  · exact ⟨l.map articleToRIS, rfl, by simp⟩

/-- C9 counterexample: the page parameter `-2` parses to a truthy negative
number, so `getCurrentPage` returns `-2`, which is smaller than 1 — the
claimed lower bound fails. -/
theorem c9_counterexample :
    getCurrentPage (some ( "-2".data)) = -2
    ∧ getCurrentPage (some ( "-2".data)) < 1 := by
  refine ⟨by decide, by decide⟩

/-- C4: the RIS document is, record for record, the spec's fixed-order field
block (TY, TI, AU per author in original order, PY exactly when a 4-digit
year pattern-matches, T2, JF, N1, ER) joined with CRLF, with the blocks
separated by one blank line and the whole document carrying exactly one
trailing newline. -/
theorem c4_ris_document_shape :
    ∀ l : List Article,
      toRIS l = joinWith ( "\n\n".data)
          (l.map (fun a => joinWith ( "\r\n".data) (risFieldsSpec a))) ++ "\n".data
      ∧ trailingNewlineCount (toRIS l) = 1 := by
  intro l
  constructor
  · have hfun : articleToRIS = fun a => joinWith ( "\r\n".data) (risFieldsSpec a) := by
      funext a
      simp [articleToRIS, risLines_eq_spec]
    simp [toRIS, hfun]
  · exact toRIS_trailing l

/-- The value of the `page` query parameter as `parseInt` sees it (`none` for
an absent parameter, which `parseInt` turns into `NaN`). -/
def pageParamParse (p : Option Str) : Option Int :=
  match p with
  | none => none
  | some v => jsParseInt v

theorem getCurrentPage_eq (p : Option Str) :
    getCurrentPage p = match pageParamParse p with
      | none => 1
      | some n => if n = 0 then 1 else n := by
  cases p <;> rfl

/-- C9 (amended): `getCurrentPage` returns 1 whenever the page parameter is
absent or fails to parse or parses to 0, and otherwise returns the parsed
integer unchanged — so the result is ≥ 1 for every parameter that does not
parse to a negative number, but a negative page parameter is returned as-is
(below 1). -/
theorem c9_amended_getCurrentPage :
    ∀ p : Option Str,
      (pageParamParse p = none → getCurrentPage p = 1)
      ∧ (pageParamParse p = some 0 → getCurrentPage p = 1)
      ∧ (∀ n, pageParamParse p = some n → n ≠ 0 → getCurrentPage p = n)
      ∧ ((∀ n, pageParamParse p = some n → 1 ≤ n) → 1 ≤ getCurrentPage p) := by
  intro p
  rw [getCurrentPage_eq]
  refine ⟨fun h => by simp [h], fun h => by simp [h], fun n h hn => by simp [h, hn], fun h => ?_⟩
  cases hp : pageParamParse p with
  | none => simp [hp]
  | some n =>
    have h1 := h n hp
    have hn : n ≠ 0 := by omega
    simp [hp, hn]
    omega

/-- C9 witness: amended behaviour at concrete parameters — parameter `7`
yields a result of at least 1. -/
theorem c9_amended_getCurrentPage_witness :
    1 ≤ getCurrentPage (some ( "7".data)) := by
  refine (c9_amended_getCurrentPage (some ( "7".data))).2.2.2 ?_
  intro n h
  have h7 : pageParamParse (some ( "7".data)) = some 7 := by decide
  rw [h7] at h
  injection h with h'
  omega

/-- A stored checkpoint object whose `processedPages` field is a string
rather than an array of integers: its field deserialization fails per the
checkpoint schema, but iterating the string does not throw in the code. -/
def malformedCheckpoint : Json :=
  Json.obj
    [( "format".data, Json.str ( "ris".data)),
     ( "articles".data, Json.arr []),
     ( "processedPages".data, Json.str ( "ab".data)),
     ( "totalArticles".data, Json.num 1),
     ( "startTime".data, Json.str ( "garbage".data))]

/-- C6 counterexample: a stored checkpoint whose `processedPages` field fails
schema deserialization (a string, not an array of integers, with a
non-ISO-8601 `startTime` as well) is nevertheless returned as a non-absent
state, and the slot is left in place rather than cleared. -/
theorem c6_counterexample :
    checkpointFieldsOkSpec malformedCheckpoint = false
    ∧ (StateManager.load (some (Except.ok malformedCheckpoint))).1.isSome = true
    ∧ (StateManager.load (some (Except.ok malformedCheckpoint))).2
        = some (Except.ok malformedCheckpoint) := by
  exact ⟨rfl, rfl, rfl⟩

/-- C6 (amended): `load` returns absent when no checkpoint exists; it returns
absent and clears the slot exactly when the deserialization code throws —
the stored text does not parse as JSON, the parsed value is `null`, or the
pages field holds a non-iterable value; a checkpoint whose deserialization
does not throw is returned non-absent with the slot kept, even when its
fields are malformed with respect to the checkpoint schema. -/
theorem c6_amended_load :
    StateManager.load none = (none, none)
    ∧ (∀ e, StateManager.load (some (Except.error e)) = (none, none))
    ∧ (∀ j st, deserializeState j = Except.ok st →
        StateManager.load (some (Except.ok j)) = (some st, some (Except.ok j)))
    ∧ (∀ j e, deserializeState j = Except.error e →
        StateManager.load (some (Except.ok j)) = (none, none))
    ∧ deserializeState Json.null = Except.error () := by
  refine ⟨rfl, fun e => rfl, fun j st h => ?_, fun j e h => ?_, rfl⟩
  · simp [StateManager.load, h]
  · simp [StateManager.load, h]

/-- A well-formed stored checkpoint and the state `load` reconstructs from
it. -/
def goodCheckpoint : Json :=
  Json.obj
    [( "format".data, Json.str ( "ris".data)),
     ( "articles".data, Json.arr []),
     ( "processedPages".data, Json.arr [Json.num 1]),
     ( "totalArticles".data, Json.num 1),
     ( "startTime".data, Json.str ( "2024-01-01T00:00:00".data))]

/-- C6 witness: the amended characterisation applied to the concrete
well-formed checkpoint. -/
theorem c6_amended_load_witness :
    StateManager.load (some (Except.ok goodCheckpoint))
      = (some { raw := goodCheckpoint
                processedPages := [Json.num 1]
                startTime := some (Json.str ( "2024-01-01T00:00:00".data)) },
         some (Except.ok goodCheckpoint)) :=
  c6_amended_load.2.2.1 goodCheckpoint
    { raw := goodCheckpoint
      processedPages := [Json.num 1]
      startTime := some (Json.str ( "2024-01-01T00:00:00".data)) } rfl

theorem replaceChar_append (c : Char) (rep u v : Str) :
    replaceChar c rep (u ++ v) = replaceChar c rep u ++ replaceChar c rep v := by
  simp [replaceChar]

theorem escapeBibTeX_append (u v : Str) :
    escapeBibTeX (u ++ v) = escapeBibTeX u ++ escapeBibTeX v := by
  simp [escapeBibTeX, replaceChar_append]

theorem escapeBibTeX_single (a : Char) : escapeBibTeX [a] = escCharSpec a := by
  by_cases h : a ∈ bibSpecial
  · simp [bibSpecial] at h
    rcases h with rfl | rfl | rfl | rfl | rfl | rfl | rfl <;> rfl
  · simp [bibSpecial] at h
    obtain ⟨h1, h2, h3, h4, h5, h6, h7⟩ := h
    simp [escapeBibTeX, replaceChar, escCharSpec, bibSpecial, h1, h2, h3, h4, h5, h6, h7]

theorem escapeBibTeX_eq_flatMap (x : Str) : escapeBibTeX x = x.flatMap escCharSpec := by
  induction x with
  | nil => rfl
  | cons a x ih =>
    have hsplit : a :: x = [a] ++ x := rfl
    rw [hsplit, escapeBibTeX_append, escapeBibTeX_single, List.flatMap_append, ih]
    simp [escCharSpec]

theorem escapeBibTeX_safe {x : Str} (h : ∀ c ∈ x, c ∉ bibSpecial) :
    escapeBibTeX x = x := by
  rw [escapeBibTeX_eq_flatMap]
  induction x with
  | nil => rfl
  | cons a x ih =>
    have ha : a ∉ bibSpecial := h a (List.mem_cons_self a x)
    have hx : ∀ c ∈ x, c ∉ bibSpecial := fun c hc => h c (List.mem_cons_of_mem a hc)
    simp [escCharSpec, ha, ih hx]

theorem escapeBibTeX_count_nonbackslash (x : Str) (c : Char)
    (hc : c ∈ bibSpecial) (hne : c ≠ '\\') :
    (escapeBibTeX x).count c = x.count c := by
  rw [escapeBibTeX_eq_flatMap]
  induction x with
  | nil => rfl
  | cons a x ih =>
    rw [List.flatMap_cons, List.count_append, ih]
    by_cases hm : a ∈ bibSpecial
    · by_cases hac : a = c
      · subst hac
        simp [escCharSpec, hm, List.count_cons, hne]
        omega
      · simp [escCharSpec, hm, List.count_cons, hac, hne]
    · simp [escCharSpec, hm, List.count_cons]
      omega

theorem escapeBibTeX_count_backslash (x : Str) :
    (escapeBibTeX x).count '\\'
      = x.count '\\' + x.countP (fun c => decide (c ∈ bibSpecial)) := by
  rw [escapeBibTeX_eq_flatMap]
  induction x with
  | nil => rfl
  | cons a x ih =>
    rw [List.flatMap_cons, List.count_append, ih, List.count_cons, List.countP_cons]
    by_cases hm : a ∈ bibSpecial
    · by_cases hb : a = '\\'
      · subst hb
        simp [escCharSpec, hm, List.count_cons]
        omega
      · simp [escCharSpec, hm, hb, List.count_cons]
        omega
    · have hb : a ≠ '\\' := by
        intro h
        subst h
        exact hm (by simp [bibSpecial])
      simp [escCharSpec, hm, hb, List.count_cons]

/-- C5: the sequential backslash-first replaces of `escapeBibTeX` equal a
single pass escaping exactly the seven BibTeX-significant characters; the
function is the identity (hence idempotent) on input free of those
characters; and every occurrence of a significant character appears escaped
exactly once — the count of each non-backslash significant character is
preserved, and the output's backslash count is the input's plus one
backslash per significant character. -/
theorem c5_escape_properties :
    ∀ x : Str,
      escapeBibTeX x = x.flatMap escCharSpec
      ∧ ((∀ c ∈ x, c ∉ bibSpecial) →
          escapeBibTeX x = x ∧ escapeBibTeX (escapeBibTeX x) = escapeBibTeX x)
      ∧ (∀ c ∈ bibSpecial, c ≠ '\\' → (escapeBibTeX x).count c = x.count c)
      ∧ (escapeBibTeX x).count '\\'
          = x.count '\\' + x.countP (fun c => decide (c ∈ bibSpecial)) := by
  intro x
  refine ⟨escapeBibTeX_eq_flatMap x, fun h => ?_,
    fun c hc hne => escapeBibTeX_count_nonbackslash x c hc hne,
    escapeBibTeX_count_backslash x⟩
  have h1 := escapeBibTeX_safe h
  rw [h1]
  exact ⟨rfl, h1⟩

/-- C5 witness: the escape properties at concrete strings — `ab` is safe and
fixed by escaping, and the ampersand of `x&y` appears exactly once in the
escaped output. -/
theorem c5_escape_properties_witness :
    escapeBibTeX ( "ab".data) = "ab".data
    ∧ (escapeBibTeX ( "x&y".data)).count '&' = ( "x&y".data).count '&' :=
  ⟨((c5_escape_properties ( "ab".data)).2.1 (by decide)).1,
   (c5_escape_properties ( "x&y".data)).2.2.1 '&' (by decide) (by decide)⟩

/-- C10: across any sequence of orchestrator steps, the visited-page set
(insertion-ordered, as the JS `Set` is) only extends — the old value is a
prefix of the new one — and stays duplicate-free, so a page index is added
at most once; the records sequence likewise only grows by appending, so
existing records are never removed or reordered; and a run started fresh has
a duplicate-free page set throughout. -/
theorem c10_run_invariants :
    ∀ (steps : List OrchStep) (st : ExportState),
      st.processedPages <+: (runSteps st steps).processedPages
      ∧ st.articles <+: (runSteps st steps).articles
      ∧ (st.processedPages.Nodup → (runSteps st steps).processedPages.Nodup)
      ∧ (∀ fmt est now, (runSteps (initializeState fmt est now) steps).processedPages.Nodup) := by
  intro steps
  induction steps with
  | nil =>
    intro st
    exact ⟨List.prefix_refl _, List.prefix_refl _, fun h => h,
      fun fmt est now => List.nodup_nil⟩
  | cons s rest ih =>
    intro st
    have hrun : runSteps st (s :: rest) = runSteps (applyStep st s) rest := rfl
    have hstep := applyStep_grows st s
    have hih := ih (applyStep st s)
    refine ⟨?_, ?_, ?_, ?_⟩
    · rw [hrun]
      exact hstep.1.trans hih.1
    · rw [hrun]
      exact hstep.2.trans hih.2.1
    · intro h
      rw [hrun]
      exact hih.2.2.1 (applyStep_nodup st s h)
    · intro fmt est now
      have hinit : (initializeState fmt est now).processedPages.Nodup := List.nodup_nil
      have h1 : runSteps (initializeState fmt est now) (s :: rest)
          = runSteps (applyStep (initializeState fmt est now) s) rest := rfl
      rw [h1]
      exact (ih (applyStep (initializeState fmt est now) s)).2.2.1
        (applyStep_nodup _ s hinit)

/-- C10 witness: the invariants applied to a concrete resumed run and one
concrete page-processing step. -/
theorem c10_run_invariants_witness :
    resumedState.processedPages <+:
        (runSteps resumedState [OrchStep.process 2 [sampleArticle]]).processedPages
    ∧ (runSteps resumedState [OrchStep.process 2 [sampleArticle]]).processedPages.Nodup :=
  ⟨(c10_run_invariants [OrchStep.process 2 [sampleArticle]] resumedState).1,
   (c10_run_invariants [OrchStep.process 2 [sampleArticle]] resumedState).2.2.1 (by decide)⟩

end Capes
